import Mathlib

/-!
# Verification of the pyproject-assistant retrieval core

Shallow embedding of the three retrieval components of the repository:

* `assistant/cache.py`   — `DescriptionCache` (throttled description refresh),
* `assistant/embeddings.py` — `FaissStore` (vector index + id-to-path map),
* `assistant/rag.py`     — `RAGSearcher` (hybrid keyword / vector search).

External collaborators (the FAISS similarity index internals and the
`embed_text` embedding client) are outside the core of the repository and
are modelled at their interface boundary: the FAISS index is abstracted to
its size `ntotal` together with an oracle giving the `(distance, slot)` rows
that `index.search` returns, and `embed_text` by its outcome
(a vector, or an exception).  Python dictionaries are modelled as
association lists where assignment prepends (so `List.lookup` sees the most
recent binding), Python exceptions as `Except`, and the `data/` directory as
an explicit `Disk` record.
-/

namespace PyAssist

/-! ## String helpers shared by `cache.py` and `rag.py` -/

/-- Characters matched by the separator class `[\s./\\]` used in
`rag.py` (`re.split(r"[\s./\\]+", ...)`): Python `\s` whitespace plus
dot, slash and backslash. -/
def isSep (c : Char) : Bool :=
  c = ' ' || c = '\t' || c = '\n' || c = '\r' || c = '\x0b' || c = '\x0c' ||
  c = '.' || c = '/' || c = '\\'

/-- Worker for `re.split(r"[\s./\\]+", s)`.  `inRun` records whether the
scan stands inside a separator run, `cur` accumulates the current token
(reversed).  A run emits the pending token when it starts; a run that ends
the string contributes a final empty token, exactly as `re.split` in Python
does. -/
def splitRuns (inRun : Bool) : List Char → List Char → List (List Char)
  | [], cur => if inRun then [[]] else [cur.reverse]
  | c :: rest, cur =>
    if isSep c then
      if inRun then splitRuns true rest []
      else cur.reverse :: splitRuns true rest []
    else splitRuns false rest (c :: cur)

/-- `re.split(r"[\s./\\]+", s)`: split at maximal runs of separator
characters (empty pieces appear only at the boundaries of the string). -/
def pySplit (s : String) : List String :=
  (splitRuns false s.data []).map fun cs => String.mk cs

/-- Python `str.lower()` (the repository only lowercases ASCII names and
paths). -/
def pyLower (s : String) : String :=
  String.mk (s.data.map Char.toLower)

/-- Characters kept by `re.sub(r"[^a-z0-9_./\\]+", " ", s)` in
`RAGSearcher._get_keywords`. -/
def keepChar (c : Char) : Bool :=
  ('a' ≤ c && c ≤ 'z') || ('0' ≤ c && c ≤ '9') ||
  c = '_' || c = '.' || c = '/' || c = '\\'

/-- `re.sub(r"[^a-z0-9_./\\]+", " ", s)`, modelled character by character:
runs of replaced characters collapse anyway at the later separator split,
so the token lists agree with the run-wise substitution of Python. -/
def pyCleanse (s : String) : String :=
  String.mk (s.data.map fun c => if keepChar c then c else ' ')

/-- The Python `needle in hay` substring test. -/
def strContains (hay needle : String) : Bool :=
  hay.data.tails.any fun t => needle.data.isPrefixOf t

/-- The Python `s.endswith(suffix)`. -/
def strEndsWith (s suffix : String) : Bool :=
  suffix.data.isSuffixOf s.data

/-- The Python `s.replace(".py", "")` on character lists, the one `replace`
the searcher performs: a left-to-right scan removing each non-overlapping
occurrence of `".py"`. -/
def removeDotPy : List Char → List Char
  | '.' :: 'p' :: 'y' :: rest => removeDotPy rest
  | c :: rest => c :: removeDotPy rest
  | [] => []

/-- The Python `s.replace(".py", "")` on strings. -/
def removeDotPyStr (s : String) : String :=
  String.mk (removeDotPy s.data)

/-! ## `assistant/cache.py` — `DescriptionCache` -/

/-- One value of the `descriptions.json` table.  Per the documented schema a
cache entry is a dict holding at most the keys `"desc"` (string) and
`"count"` (integer); an absent key is `none`. -/
structure CacheEntry where
  desc : Option String
  count : Option Int
deriving DecidableEq

/-- Python truthiness of the entry dict (`if not entry:`): under the schema
the dict is falsy exactly when it has no keys at all. -/
def CacheEntry.isTruthy (e : CacheEntry) : Bool :=
  e.desc.isSome || e.count.isSome

/-- `DescriptionCache._data`: the path-keyed table; assignment prepends, so
`List.lookup` returns the most recent binding. -/
abbrev CacheData := List (String × CacheEntry)

/-- `DescriptionCache.should_query_llm`: true when no entry exists (or the
entry dict is falsy), otherwise when `entry.get("count", 1)` is a multiple
of 5. -/
def should_query_llm (data : CacheData) (relpath : String) : Bool :=
  match data.lookup relpath with
  | none => true
  | some entry =>
    if !entry.isTruthy then true
    else decide ((entry.count.getD 1) % 5 = 0)

/-- `DescriptionCache.touch`: upserts the entry, setting `desc` and
incrementing `entry.get("count", 0)` by one.  (The subsequent `_persist`
write of `descriptions.json` is not modelled; no claim concerns it.) -/
def touch (data : CacheData) (relpath : String) (description : String) :
    CacheData :=
  (relpath,
   ⟨some description,
    some ((((data.lookup relpath).getD ⟨none, none⟩).count.getD 0) + 1)⟩) :: data

/-- `n` successive `touch` calls for the same path, starting from an empty
cache. -/
def touchN (n : Nat) (relpath : String) (description : String) : CacheData :=
  match n with
  | 0 => []
  | n + 1 => touch (touchN n relpath description) relpath description

/-! ## Python string comparison and `sorted` -/

/-- Lexicographic code-point comparison of character lists, as the
`str` comparison performs it. -/
def charListLe : List Char → List Char → Bool
  | [], _ => true
  | _ :: _, [] => false
  | a :: as, b :: bs =>
    if a < b then true
    else if b < a then false
    else charListLe as bs

/-- The Python `a <= b` comparison on strings. -/
def strLeb (a b : String) : Bool :=
  charListLe a.data b.data

/-- `sorted(results)` where `results` is a set of strings: the
lexicographically sorted list of the distinct elements (first occurrences
kept by `dedup`; the sort makes the order canonical). -/
def pySortedSet (l : List String) : List String :=
  List.insertionSort (fun a b => strLeb a b = true) l.dedup

/-! ## `assistant/embeddings.py` — `FaissStore` -/

/-- In-memory state of `FaissStore`.  The FAISS flat index is external
library state; the claims depend only on its size, so `index` is its
`ntotal` (and `none` models `self.index is None`).  `id_map` holds the
decimal-string keys `str(i)` as the numbers `i`; assignment prepends, so
`List.lookup` returns the most recent binding. -/
structure FaissStore where
  dim : Option Nat
  index : Option Nat
  id_map : List (Nat × String)
deriving DecidableEq

/-- The freshly constructed store when no persisted files are found (or
loading failed). -/
def FaissStore.empty : FaissStore :=
  { dim := none, index := none, id_map := [] }

/-- `self.index.ntotal`, with `0` for an uninitialized index. -/
def FaissStore.ntotal (st : FaissStore) : Nat :=
  match st.index with
  | none => 0
  | some n => n

/-- The on-disk artifacts under `data/`: `vector.index` (modelled by the
`ntotal` it encodes) and `embeddings_map.json`; `none` means the file is
absent. -/
structure Disk where
  indexFile : Option Nat
  mapFile : Option (List (Nat × String))
deriving DecidableEq

/-- A `data/` directory with neither artifact present. -/
def Disk.empty : Disk :=
  { indexFile := none, mapFile := none }

/-- `FaissStore.persist`: writes the index file only when the index exists,
and always rewrites the map file. -/
def FaissStore.persist (st : FaissStore) (d : Disk) : Disk :=
  { indexFile := match st.index with
      | none => d.indexFile
      | some n => some n
    mapFile := some st.id_map }

/-- `FaissStore.add`: lazily initializes the index with the vector
dimension, inserts the vector (the slot count grows by one), records
`id_map[str(ntotal - 1)] = filepath`, and flushes when `persist_now`
(default `True`). -/
def FaissStore.add (st : FaissStore) (d : Disk) (vector : List Float)
    (filepath : String) (persist_now : Bool := true) : FaissStore × Disk :=
  let st1 : FaissStore :=
    match st.index with
    | none => { st with dim := some vector.length, index := some 0 }
    | some _ => st
  let n := st1.ntotal
  let st2 : FaissStore :=
    { st1 with index := some (n + 1), id_map := (n, filepath) :: st1.id_map }
  if persist_now then (st2, st2.persist d) else (st2, d)

/-- `FaissStore.clear`: drops the in-memory index and map and unlinks both
files; each unlink is guarded by an existence check (a missing file is
skipped, not an error), so the resulting disk has neither artifact. -/
def FaissStore.clear (st : FaissStore) (d : Disk) : FaissStore × Disk :=
  ({ st with index := none, id_map := [] },
   { indexFile := none, mapFile := none })

/-- `self.id_map.get(str(idx))` for a FAISS slot `idx` (an `int`): the
decimal string of a negative number never equals a stored key `str(i)`,
`i ≥ 0`. -/
def lookupSlot (m : List (Nat × String)) (idx : Int) : Option String :=
  if idx < 0 then none else m.lookup idx.toNat

/-- The body of the result loop of `FaissStore.search` for one
`(distance, slot)` row: rows with slot `-1`, or whose slot has no map entry
(or a falsy one, i.e. the empty path), are skipped with a log line; mapped
rows yield `(distance, filepath)`. -/
def searchRowFilter (m : List (Nat × String)) (row : Float × Int) :
    Option (Float × String) :=
  if row.2 = -1 then none
  else
    match lookupSlot m row.2 with
    | none => none
    | some fp => if fp = "" then none else some (row.1, fp)

/-- `FaissStore.search`.  `raw kEff` abstracts the external call
`self.index.search(vec, kEff)`, giving the `(distance, slot)` rows FAISS
returns; FAISS itself raises when the effective `kEff` is not positive,
modelled by the error branch. -/
def FaissStore.search (st : FaissStore) (raw : Nat → List (Float × Int))
    (vector : List Float) (k : Int) : Except String (List (Float × String)) :=
  match st.index with
  | none => .ok []
  | some n =>
    if n = 0 then .ok []
    else
      let kEff : Int := min k (n : Int)
      if kEff ≤ 0 then .error "k must be positive"
      else .ok ((raw kEff.toNat).filterMap (searchRowFilter st.id_map))

/-! ## `assistant/rag.py` — `RAGSearcher` -/

/-- One record of `metadata.json`: per the documented schema a dict with
the keys `file`, `functions`, `classes` (missing keys default to `""` /
`[]` through `item.get`). -/
structure MetaItem where
  file : String
  functions : List String
  classes : List String
deriving DecidableEq

/-- The noise-word set removed from query tokens by
`RAGSearcher._get_keywords`. -/
def noise_words : List String :=
  ["schreibe", "inhalt", "für", "die", "das", "package", "ein", "eine",
   "und", "oder", "mit", "von", "zu", "py", "datei", "file", "function",
   "klasse", "class", "methode", "method", "in", "der", "relativer", "pfad"]

/-- `RAGSearcher._get_keywords`: lowercase, strip characters outside
`[a-z0-9_./\\]`, split on whitespace / dots / slashes, and drop empty
tokens and noise words.  (`dedup` mirrors the `set(...)` construction.) -/
def get_keywords (query : String) : List String :=
  let q_cleaned := pyCleanse (pyLower query)
  let tokens := (pySplit q_cleaned).dedup
  tokens.filter fun t => t != "" && !(noise_words.contains t)

/-- The token set built for one metadata record in the keyword pass: path
components (lowercased, with every `".py"` occurrence removed) plus the
lowercased function and class names. -/
def itemTokens (item : MetaItem) : List String :=
  let path_tokens := pySplit (removeDotPyStr (pyLower item.file))
  let functions := item.functions.map pyLower
  let classes := item.classes.map pyLower
  path_tokens ++ functions ++ classes

/-- Non-empty intersection of two token sets. -/
def intersects (a b : List String) : Bool :=
  a.any fun t => b.contains t

/-- The file paths one well-formed metadata record contributes in the
keyword loop of `find_relevant_files`: non-`.py` records are skipped; a
record whose path occurs literally in the lowercased query is added
directly; otherwise it is added when the query keywords intersect the
token set of the record. -/
def keywordHits (q_lower : String) (q_keywords : List String)
    (item : MetaItem) : List String :=
  if !(strEndsWith item.file ".py") then []
  else if strContains q_lower item.file then [item.file]
  else if intersects q_keywords (itemTokens item) then [item.file]
  else []

/-- The keyword pass: iterates the metadata records in order.  A malformed
record raises inside the loop; the surrounding `try/except` swallows the
exception, so iteration stops there but the hits accumulated before it are
kept. -/
def keywordPass (q_lower : String) (q_keywords : List String) :
    List (Except String MetaItem) → List String
  | [] => []
  | .error _ :: _ => []
  | .ok item :: rest =>
    keywordHits q_lower q_keywords item ++ keywordPass q_lower q_keywords rest

/-- State of `RAGSearcher`: the vector store and the loaded metadata
records.  A record is `.error` when reading its fields raises (malformed
entry), which is the failure mode of the keyword pass. -/
structure RAGSearcher where
  faiss : FaissStore
  metadata : List (Except String MetaItem)

/-- The keyword-pass results of `find_relevant_files` for a query. -/
def RAGSearcher.keywordResults (r : RAGSearcher) (query : String) :
    List String :=
  keywordPass (pyLower query) (get_keywords query) r.metadata

/-- The vector-pass results of `find_relevant_files`: embeds the query via
the external `embed_text` (abstracted by its outcome `embed`), searches the
store, and keeps the file paths; the surrounding `try/except` turns any
failure (embedding or search) into an empty contribution. -/
def RAGSearcher.vectorResults (r : RAGSearcher)
    (embed : Except String (List Float)) (raw : Nat → List (Float × Int))
    (top_k : Int) : List String :=
  match embed with
  | .error _ => []
  | .ok emb =>
    match r.faiss.search raw emb top_k with
    | .error _ => []
    | .ok hits => hits.map fun h => h.2

/-- `RAGSearcher.find_relevant_files`: keyword pass and vector pass feed a
result set, returned as a sorted list.  The two `try/except` blocks make
the method total — it never raises to the caller, hence always `.ok`. -/
def RAGSearcher.find_relevant_files (r : RAGSearcher)
    (embed : Except String (List Float)) (raw : Nat → List (Float × Int))
    (query : String) (top_k : Int := 5) : Except String (List String) :=
  .ok (pySortedSet (r.keywordResults query ++ r.vectorResults embed raw top_k))

/-! ## The list of `add` calls used by the id-map invariant -/

/-- A sequence of `add` calls (vector, path), each with the default
`persist_now`, starting from a fresh store and an empty `data/`
directory. -/
def addSeq (items : List (List Float × String)) : FaissStore × Disk :=
  items.foldl (fun sd it => sd.1.add sd.2 it.1 it.2) (FaissStore.empty, Disk.empty)

/-- The id-map is exactly the slots `0 .. ntotal - 1`: a slot has an entry
precisely when it is below the index size. -/
def mapComplete (st : FaissStore) : Prop :=
  ∀ i : Nat, (st.id_map.lookup i).isSome ↔ i < st.ntotal

/-! ## The executable comparison agrees with the lexicographic order -/

theorem charListLe_eq_true_iff :
    ∀ as bs : List Char, charListLe as bs = true ↔ ¬ List.Lex (· < ·) bs as
  | [], bs => by
    simp only [charListLe]
    exact (iff_true_intro (List.Lex.not_nil_right _ _)).symm
  | _ :: _, [] => by
    simp only [charListLe]
    constructor
    · intro h
      exact Bool.noConfusion h
    · intro h
      exact absurd List.Lex.nil h
  | a :: as, b :: bs => by
    rcases lt_trichotomy a b with hab | heq | hba
    · simp only [charListLe, if_pos hab]
      constructor
      · intro _ h
        cases h with
        | rel h' => exact absurd h' (lt_asymm hab)
        | cons h' => exact absurd hab (lt_irrefl _)
      · intro _
        trivial
    · subst heq
      simp only [charListLe, if_neg (lt_irrefl a)]
      rw [charListLe_eq_true_iff as bs]
      constructor
      · intro h hlex
        cases hlex with
        | rel h' => exact absurd h' (lt_irrefl a)
        | cons h' => exact h h'
      · intro h h'
        exact h (List.Lex.cons h')
    · simp only [charListLe, if_neg (lt_asymm hba), if_pos hba]
      constructor
      · intro h
        exact Bool.noConfusion h
      · intro h
        exact absurd (List.Lex.rel hba) h

theorem strLeb_iff_le (a b : String) : strLeb a b = true ↔ a ≤ b := by
  rw [strLeb, charListLe_eq_true_iff, ← not_lt]
  exact not_congr (Iff.symm String.lt_iff_toList_lt)

/-! ## Properties of the merged, sorted result list -/

theorem pySortedSet_sorted (l : List String) :
    (pySortedSet l).Sorted (· ≤ ·) := by
  haveI htot : IsTotal String (fun a b => strLeb a b = true) :=
    ⟨fun a b => by
      simp only [strLeb_iff_le]
      exact le_total a b⟩
  haveI htrans : IsTrans String (fun a b => strLeb a b = true) :=
    ⟨fun a b c hab hbc => by
      rw [strLeb_iff_le] at hab hbc ⊢
      exact le_trans hab hbc⟩
  have h := List.sorted_insertionSort (fun a b => strLeb a b = true) l.dedup
  exact h.imp fun hab => (strLeb_iff_le _ _).mp hab

theorem pySortedSet_nodup (l : List String) : (pySortedSet l).Nodup :=
  ((List.perm_insertionSort _ _).nodup_iff).mpr l.nodup_dedup

theorem pySortedSet_mem (p : String) (l : List String) :
    p ∈ pySortedSet l ↔ p ∈ l := by
  unfold pySortedSet
  rw [List.mem_insertionSort, List.mem_dedup]

/-! ## Keyword-pass lemmas -/

theorem keywordHits_subset (ql : String) (qk : List String) (item : MetaItem)
    (p : String) (hp : p ∈ keywordHits ql qk item) :
    p = item.file ∧ strEndsWith p ".py" = true := by
  unfold keywordHits at hp
  split_ifs at hp with h1 h2 h3
  · exact absurd hp (List.not_mem_nil p)
  · have h := List.mem_singleton.mp hp
    subst h
    exact ⟨rfl, by simpa using h1⟩
  · have h := List.mem_singleton.mp hp
    subst h
    exact ⟨rfl, by simpa using h1⟩
  · exact absurd hp (List.not_mem_nil p)

theorem keywordPass_endsWith (ql : String) (qk : List String) :
    ∀ (md : List (Except String MetaItem)) (p : String),
      p ∈ keywordPass ql qk md → strEndsWith p ".py" = true
  | [], p => by
    intro hp
    exact absurd hp (List.not_mem_nil p)
  | .error _ :: _, p => by
    intro hp
    exact absurd hp (List.not_mem_nil p)
  | .ok item :: rest, p => by
    intro hp
    rcases List.mem_append.mp hp with h | h
    · exact (keywordHits_subset ql qk item p h).2
    · exact keywordPass_endsWith ql qk rest p h

/-! ## `FaissStore` lemmas -/

theorem FaissStore.ntotal_add (st : FaissStore) (d : Disk) (v : List Float)
    (p : String) (pn : Bool) : ((st.add d v p pn).1).ntotal = st.ntotal + 1 := by
  unfold FaissStore.add
  cases hidx : st.index <;> cases pn <;> simp [FaissStore.ntotal, hidx]

theorem FaissStore.id_map_add (st : FaissStore) (d : Disk) (v : List Float)
    (p : String) (pn : Bool) :
    ((st.add d v p pn).1).id_map = (st.ntotal, p) :: st.id_map := by
  unfold FaissStore.add
  cases hidx : st.index <;> cases pn <;> simp [FaissStore.ntotal, hidx]

theorem mapComplete_add (st : FaissStore) (d : Disk) (v : List Float)
    (p : String) (pn : Bool) (h : mapComplete st) :
    mapComplete (st.add d v p pn).1 := by
  intro i
  rw [FaissStore.id_map_add, FaissStore.ntotal_add]
  by_cases hik : i = st.ntotal
  · subst hik
    simp [List.lookup]
  · have hbeq : (i == st.ntotal) = false := beq_eq_false_iff_ne.mpr hik
    rw [show (List.lookup i ((st.ntotal, p) :: st.id_map))
        = List.lookup i st.id_map by
      simp [List.lookup, hbeq]]
    rw [h i]
    omega

theorem foldl_add_mapComplete :
    ∀ (items : List (List Float × String)) (st : FaissStore) (d : Disk),
      mapComplete st →
      mapComplete (items.foldl (fun sd it => sd.1.add sd.2 it.1 it.2) (st, d)).1
      ∧ ((items.foldl (fun sd it => sd.1.add sd.2 it.1 it.2) (st, d)).1).ntotal
          = st.ntotal + items.length
  | [], st, d => by
    intro h
    exact ⟨h, by simp⟩
  | it :: rest, st, d => by
    intro h
    rw [List.foldl_cons]
    have step := foldl_add_mapComplete rest (st.add d it.1 it.2).1
      (st.add d it.1 it.2).2 (mapComplete_add st d it.1 it.2 true h)
    refine ⟨step.1, ?_⟩
    rw [step.2, FaissStore.ntotal_add]
    simp [List.length_cons]
    omega

theorem FaissStore.search_none (st : FaissStore) (raw : Nat → List (Float × Int))
    (v : List Float) (k : Int) (h : st.index = none) :
    st.search raw v k = .ok [] := by
  unfold FaissStore.search
  rw [h]

theorem FaissStore.search_zero (st : FaissStore) (raw : Nat → List (Float × Int))
    (v : List Float) (k : Int) (h : st.index = some 0) :
    st.search raw v k = .ok [] := by
  unfold FaissStore.search
  rw [h]
  rfl

theorem FaissStore.search_pos (st : FaissStore) (raw : Nat → List (Float × Int))
    (v : List Float) (k : Int) (n : Nat) (hidx : st.index = some n) (hn : n ≠ 0)
    (hk : 0 < k) :
    st.search raw v k
      = .ok ((raw (min k (n : Int)).toNat).filterMap (searchRowFilter st.id_map)) := by
  unfold FaissStore.search
  rw [hidx]
  have h1 : (0 : Int) < (n : Int) := by exact_mod_cast Nat.pos_of_ne_zero hn
  have hmin : ¬ (min k (n : Int) ≤ 0) := by
    have := lt_min hk h1
    omega
  dsimp only
  rw [if_neg hn, if_neg hmin]

theorem FaissStore.search_nonpos (st : FaissStore) (raw : Nat → List (Float × Int))
    (v : List Float) (k : Int) (n : Nat) (hidx : st.index = some n) (hn : n ≠ 0)
    (hk : k ≤ 0) :
    st.search raw v k = .error "k must be positive" := by
  unfold FaissStore.search
  rw [hidx]
  have hmin : min k (n : Int) ≤ 0 := le_trans (min_le_left _ _) hk
  dsimp only
  rw [if_neg hn, if_pos hmin]

theorem searchRowFilter_some (m : List (Nat × String)) (row : Float × Int)
    (x : Float × String) (h : searchRowFilter m row = some x) :
    ∃ i : Nat, m.lookup i = some x.2 := by
  unfold searchRowFilter at h
  by_cases h1 : row.2 = -1
  · rw [if_pos h1] at h
    exact Option.noConfusion h
  · rw [if_neg h1] at h
    cases hls : lookupSlot m row.2 with
    | none =>
      rw [hls] at h
      dsimp only at h
      exact Option.noConfusion h
    | some fp =>
      rw [hls] at h
      dsimp only at h
      by_cases h2 : fp = ""
      · rw [if_pos h2] at h
        exact Option.noConfusion h
      · rw [if_neg h2] at h
        injection h with h'
        refine ⟨row.2.toNat, ?_⟩
        unfold lookupSlot at hls
        split_ifs at hls with hneg
        rw [← h']
        exact hls

theorem FaissStore.search_mem (st : FaissStore) (raw : Nat → List (Float × Int))
    (v : List Float) (k : Int) (hits : List (Float × String))
    (h : st.search raw v k = .ok hits) :
    ∀ x ∈ hits, ∃ i : Nat, st.id_map.lookup i = some x.2 := by
  intro x hx
  cases hidx : st.index with
  | none =>
    rw [st.search_none raw v k hidx] at h
    injection h with h'
    rw [← h'] at hx
    exact absurd hx (List.not_mem_nil x)
  | some n =>
    by_cases hn : n = 0
    · subst hn
      rw [st.search_zero raw v k hidx] at h
      injection h with h'
      rw [← h'] at hx
      exact absurd hx (List.not_mem_nil x)
    · by_cases hk : 0 < k
      · rw [st.search_pos raw v k n hidx hn hk] at h
        injection h with h'
        rw [← h'] at hx
        obtain ⟨row, _, hf⟩ := List.mem_filterMap.mp hx
        exact searchRowFilter_some st.id_map row x hf
      · rw [st.search_nonpos raw v k n hidx hn (by omega)] at h
        cases h

/-! ## `DescriptionCache` lemmas -/

theorem touchN_lookup (p dsc : String) :
    ∀ n : Nat, (touchN n p dsc).lookup p
      = if n = 0 then none else some ⟨some dsc, some (n : Int)⟩
  | 0 => rfl
  | n + 1 => by
    show (touch (touchN n p dsc) p dsc).lookup p = _
    unfold touch
    have hbeq : (p == p) = true := by simp
    simp only [List.lookup, hbeq]
    rw [touchN_lookup p dsc n]
    by_cases hn : n = 0
    · subst hn
      simp
    · rw [if_neg hn, if_neg (Nat.succ_ne_zero n)]
      simp only [Option.getD_some]
      push_cast
      rfl

theorem should_query_touchN (p dsc : String) (n : Nat) :
    should_query_llm (touchN n p dsc) p
      = (decide (n = 0) || decide ((n : Int) % 5 = 0)) := by
  unfold should_query_llm
  rw [touchN_lookup]
  by_cases hn : n = 0
  · subst hn
    simp
  · rw [if_neg hn]
    simp [CacheEntry.isTruthy, hn]

/-! ## Claim theorems -/

/-- Claim C1, counterexample.  The claim states that an existing entry
missing the `count` field is treated as `count = 1` and so yields
`should_refresh = false`.  The code checks `if not entry:` first, so an
existing but *empty* entry dict (as `{"a.py": {}}` in `descriptions.json`)
is falsy and yields `true`, refuting the claim as stated. -/
theorem should_query_empty_entry_counterexample :
    (([("a.py", (⟨none, none⟩ : CacheEntry))] : CacheData).lookup "a.py"
        = some ⟨none, none⟩)
  ∧ (⟨none, none⟩ : CacheEntry).count = none
  ∧ should_query_llm [("a.py", ⟨none, none⟩)] "a.py" = true :=
  ⟨rfl, rfl, rfl⟩

/-- Claim C1, amended.  `should_query_llm` is true exactly when no entry
exists, the entry dict is falsy, or the count (defaulting to 1 when the
key is missing) is a multiple of 5: (a) a *non-empty* entry missing
`count` yields `false`; (b) after `n` touches of a file the decision is
`n = 0 ∨ n % 5 = 0`; (c) evaluated before each of 6 successive touches the
decisions are `[true, false, false, false, false, true]`. -/
theorem cache_throttle_amended :
    (∀ (data : CacheData) (p : String) (e : CacheEntry),
        data.lookup p = some e → e.count = none → e.desc.isSome = true →
        should_query_llm data p = false)
  ∧ (∀ (n : Nat) (p dsc : String),
        should_query_llm (touchN n p dsc) p
          = (decide (n = 0) || decide ((n : Int) % 5 = 0)))
  ∧ ((List.range 6).map
        (fun i => should_query_llm (touchN i "a.py" "d") "a.py")
      = [true, false, false, false, false, true]) := by
  refine ⟨?_, fun n p dsc => should_query_touchN p dsc n, by decide⟩
  intro data p e hl hc hd
  unfold should_query_llm
  rw [hl]
  have ht : e.isTruthy = true := by
    simp [CacheEntry.isTruthy, hd]
  dsimp only
  rw [ht, hc]
  decide

/-- Witness for the amended C1 theorem: the entry `{desc: "d"}` exists and
misses `count`, and the code answers `false`. -/
theorem cache_throttle_amended_witness :
    should_query_llm [("a.py", (⟨some "d", none⟩ : CacheEntry))] "a.py" = false :=
  cache_throttle_amended.1 [("a.py", ⟨some "d", none⟩)] "a.py"
    ⟨some "d", none⟩ rfl rfl rfl

/-- Claim C2: for every sequence of `add` calls starting from an empty
store, the id-map has an entry for exactly the slots `0 .. size - 1`
(each `add` records slot `ntotal - 1`), and `search` only ever returns
paths that come from a mapped slot. -/
theorem addSeq_idmap_consistency :
    (∀ items : List (List Float × String),
        ((addSeq items).1).ntotal = items.length
        ∧ ∀ i : Nat,
            ((((addSeq items).1).id_map.lookup i).isSome ↔ i < items.length))
  ∧ (∀ (st : FaissStore) (raw : Nat → List (Float × Int)) (v : List Float)
        (k : Int) (hits : List (Float × String)),
        st.search raw v k = .ok hits →
        ∀ x ∈ hits, ∃ i : Nat, st.id_map.lookup i = some x.2) := by
  constructor
  · intro items
    have base : mapComplete FaissStore.empty := by
      intro i
      constructor
      · intro hh
        simp [FaissStore.empty, List.lookup] at hh
      · intro hh
        simp [FaissStore.empty, FaissStore.ntotal] at hh
    have h := foldl_add_mapComplete items FaissStore.empty Disk.empty base
    have hn0 : FaissStore.empty.ntotal = 0 := rfl
    have hnt : ((addSeq items).1).ntotal = items.length := by
      show ((items.foldl (fun sd it => sd.1.add sd.2 it.1 it.2)
        (FaissStore.empty, Disk.empty)).1).ntotal = items.length
      rw [h.2, hn0]
      omega
    refine ⟨hnt, fun i => ?_⟩
    have hmc := h.1 i
    rw [h.2, hn0, Nat.zero_add] at hmc
    exact hmc
  · intro st raw v k hits h x hx
    exact st.search_mem raw v k hits h x hx

/-- Witness for the C2 theorem: after one `add`, slot `0` is mapped. -/
theorem addSeq_idmap_consistency_witness :
    (((addSeq [([1.0], "a.py")]).1).id_map.lookup 0).isSome = true :=
  ((addSeq_idmap_consistency.1 [([1.0], "a.py")]).2 0).mpr (by decide)

/-- Claim C9: the keyword pass only ever adds file paths ending in
`".py"`, no matter how well the tokens of a record match the query. -/
theorem keyword_pass_only_python_files (r : RAGSearcher) (query p : String)
    (hp : p ∈ r.keywordResults query) : strEndsWith p ".py" = true :=
  keywordPass_endsWith (pyLower query) (get_keywords query) r.metadata p hp

/-- Witness for the C9 theorem at a one-record metadata table. -/
theorem keyword_pass_only_python_files_witness :
    strEndsWith "a.py" ".py" = true :=
  keyword_pass_only_python_files
    (RAGSearcher.mk FaissStore.empty [.ok ⟨"a.py", [], []⟩]) "a.py" "a.py"
    (by decide)

/-- Claim C10: `add` without an explicit `persist_now` defaults to `true`
and flushes index and id-map to disk immediately; passing
`persist_now = false` leaves the disk untouched. -/
theorem add_default_persists :
    (∀ (st : FaissStore) (d : Disk) (v : List Float) (p : String),
        st.add d v p = st.add d v p true)
  ∧ (∀ (st : FaissStore) (d : Disk) (v : List Float) (p : String),
        (st.add d v p).2 = ((st.add d v p).1).persist d)
  ∧ (∀ (st : FaissStore) (d : Disk) (v : List Float) (p : String),
        ((st.add d v p).2).mapFile = some (((st.add d v p).1).id_map))
  ∧ (∀ (st : FaissStore) (d : Disk) (v : List Float) (p : String),
        ((st.add d v p).2).indexFile = some (((st.add d v p).1).ntotal))
  ∧ (∀ (st : FaissStore) (d : Disk) (v : List Float) (p : String),
        (st.add d v p false).2 = d) :=
  ⟨fun _ _ _ _ => rfl, fun _ _ _ _ => rfl, fun _ _ _ _ => rfl,
   fun _ _ _ _ => rfl, fun _ _ _ _ => rfl⟩

/-- Claim C3: for every query and every pair of pass outcomes,
`find_relevant_files` returns (without raising) the union of the
keyword-pass and vector-pass paths, deduplicated and sorted
lexicographically (the `String` order is lexicographic on code points);
with keyword results `["b.py", "a.py"]` and vector results
`["a.py", "c.py"]` it returns exactly `["a.py", "b.py", "c.py"]`. -/
theorem find_relevant_union_sorted :
    (∀ (r : RAGSearcher) (embed : Except String (List Float))
        (raw : Nat → List (Float × Int)) (query : String) (top_k : Int),
        ∃ out : List String,
          r.find_relevant_files embed raw query top_k = .ok out
          ∧ out.Sorted (· ≤ ·)
          ∧ out.Nodup
          ∧ ∀ p : String,
              (p ∈ out ↔ p ∈ r.keywordResults query
                ∨ p ∈ r.vectorResults embed raw top_k))
  ∧ ((RAGSearcher.mk ⟨some 1, some 2, [(0, "a.py"), (1, "c.py")]⟩
        [.ok ⟨"b.py", [], []⟩, .ok ⟨"a.py", [], []⟩]).keywordResults "b.py a.py"
      = ["b.py", "a.py"])
  ∧ ((RAGSearcher.mk ⟨some 1, some 2, [(0, "a.py"), (1, "c.py")]⟩
        [.ok ⟨"b.py", [], []⟩, .ok ⟨"a.py", [], []⟩]).vectorResults
        (.ok [1.0]) (fun _ => [(0.5, 0), (0.7, 1)]) 5 = ["a.py", "c.py"])
  ∧ ((RAGSearcher.mk ⟨some 1, some 2, [(0, "a.py"), (1, "c.py")]⟩
        [.ok ⟨"b.py", [], []⟩, .ok ⟨"a.py", [], []⟩]).find_relevant_files
        (.ok [1.0]) (fun _ => [(0.5, 0), (0.7, 1)]) "b.py a.py" 5
      = .ok ["a.py", "b.py", "c.py"]) := by
  refine ⟨?_, rfl, rfl, rfl⟩
  intro r embed raw query top_k
  refine ⟨pySortedSet (r.keywordResults query ++ r.vectorResults embed raw top_k),
    rfl, pySortedSet_sorted _, pySortedSet_nodup _, fun p => ?_⟩
  rw [pySortedSet_mem, List.mem_append]

/-- Claim C4, counterexample.  The claim says the method returns an empty
sequence *only* when both passes fail.  Here both passes run without any
failure — the keyword pass scans a well-formed record that does not match,
and the vector search succeeds on a non-empty index (its only row maps to
the falsy path `""`, which is skipped defensively) — yet the result is
empty. -/
theorem find_relevant_empty_without_failure :
    ((RAGSearcher.mk ⟨some 1, some 1, [(0, "")]⟩
        [.ok ⟨"b.py", [], []⟩]).keywordResults "zzz" = [])
  ∧ ((FaissStore.mk (some 1) (some 1) [(0, "")]).search
        (fun _ => [(0.3, 0)]) [1.0] 5 = .ok [])
  ∧ ((RAGSearcher.mk ⟨some 1, some 1, [(0, "")]⟩
        [.ok ⟨"b.py", [], []⟩]).find_relevant_files
        (.ok [1.0]) (fun _ => [(0.3, 0)]) "zzz" 5 = .ok []) :=
  ⟨rfl, rfl, rfl⟩

/-- Claim C4, amended.  Each pass is fault-isolated: if the embedding
collaborator fails or the vector store is empty, the keyword-pass results
are returned without raising; if the keyword pass fails (a malformed
record aborts its loop), all vector-pass results are still returned (plus
any keyword hits accumulated before the failure — in particular exactly
the vector-pass results when it fails at the first record); when both
passes fail the result is empty.  (An empty result can also arise when
both passes succeed and find nothing, see the counterexample.) -/
theorem find_relevant_degraded :
    (∀ (r : RAGSearcher) (raw : Nat → List (Float × Int)) (query : String)
        (top_k : Int) (e : String),
        r.find_relevant_files (.error e) raw query top_k
          = .ok (pySortedSet (r.keywordResults query)))
  ∧ (∀ (r : RAGSearcher) (embed : Except String (List Float))
        (raw : Nat → List (Float × Int)) (query : String) (top_k : Int),
        r.faiss.index = none →
        r.find_relevant_files embed raw query top_k
          = .ok (pySortedSet (r.keywordResults query)))
  ∧ (∀ (r : RAGSearcher) (embed : Except String (List Float))
        (raw : Nat → List (Float × Int)) (query : String) (top_k : Int),
        r.faiss.index = some 0 →
        r.find_relevant_files embed raw query top_k
          = .ok (pySortedSet (r.keywordResults query)))
  ∧ (∀ (faiss : FaissStore) (msg : String)
        (rest : List (Except String MetaItem))
        (embed : Except String (List Float)) (raw : Nat → List (Float × Int))
        (query : String) (top_k : Int),
        (RAGSearcher.mk faiss (.error msg :: rest)).find_relevant_files
            embed raw query top_k
          = .ok (pySortedSet ((RAGSearcher.mk faiss
              (.error msg :: rest)).vectorResults embed raw top_k)))
  ∧ (∀ (faiss : FaissStore) (msg : String)
        (rest : List (Except String MetaItem)) (raw : Nat → List (Float × Int))
        (query : String) (top_k : Int) (e : String),
        (RAGSearcher.mk faiss (.error msg :: rest)).find_relevant_files
            (.error e) raw query top_k = .ok [])
  ∧ (∀ (r : RAGSearcher) (embed : Except String (List Float))
        (raw : Nat → List (Float × Int)) (query : String) (top_k : Int)
        (p : String),
        p ∈ r.vectorResults embed raw top_k →
        ∃ out : List String,
          r.find_relevant_files embed raw query top_k = .ok out ∧ p ∈ out) := by
  refine ⟨?_, ?_, ?_, ?_, ?_, ?_⟩
  · intro r raw query top_k e
    show Except.ok (pySortedSet (r.keywordResults query
      ++ r.vectorResults (.error e) raw top_k)) = _
    rw [show r.vectorResults (.error e) raw top_k = [] from rfl,
      List.append_nil]
  · intro r embed raw query top_k h
    have hv : r.vectorResults embed raw top_k = [] := by
      cases embed with
      | error e => rfl
      | ok emb =>
        unfold RAGSearcher.vectorResults
        dsimp only
        rw [r.faiss.search_none raw emb top_k h]
        rfl
    show Except.ok (pySortedSet (r.keywordResults query
      ++ r.vectorResults embed raw top_k)) = _
    rw [hv, List.append_nil]
  · intro r embed raw query top_k h
    have hv : r.vectorResults embed raw top_k = [] := by
      cases embed with
      | error e => rfl
      | ok emb =>
        unfold RAGSearcher.vectorResults
        dsimp only
        rw [r.faiss.search_zero raw emb top_k h]
        rfl
    show Except.ok (pySortedSet (r.keywordResults query
      ++ r.vectorResults embed raw top_k)) = _
    rw [hv, List.append_nil]
  · intro faiss msg rest embed raw query top_k
    show Except.ok (pySortedSet
      ((RAGSearcher.mk faiss (.error msg :: rest)).keywordResults query
        ++ _)) = _
    rw [show (RAGSearcher.mk faiss
      (.error msg :: rest)).keywordResults query = [] from rfl,
      List.nil_append]
  · intro faiss msg rest raw query top_k e
    rfl
  · intro r embed raw query top_k p hp
    exact ⟨pySortedSet (r.keywordResults query
        ++ r.vectorResults embed raw top_k), rfl,
      (pySortedSet_mem p _).mpr (List.mem_append.mpr (Or.inr hp))⟩

/-- Witness for the amended C4 theorem: empty store, embedding succeeds,
the keyword-pass results come back without an error. -/
theorem find_relevant_degraded_witness :
    (RAGSearcher.mk FaissStore.empty [.ok ⟨"b.py", [], []⟩]).find_relevant_files
        (.ok [1.0]) (fun _ => []) "b.py" 5
      = .ok (pySortedSet ((RAGSearcher.mk FaissStore.empty
          [.ok ⟨"b.py", [], []⟩]).keywordResults "b.py")) :=
  find_relevant_degraded.2.1 (RAGSearcher.mk FaissStore.empty
    [.ok ⟨"b.py", [], []⟩]) (.ok [1.0]) (fun _ => []) "b.py" 5 rfl

/-- Claim C5, counterexample.  The claim says `find_relevant` fails fast
with a descriptive error for `top_k ≤ 0`.  The code performs no validation:
with `top_k = -3` the call returns a normal (`.ok`) keyword-only result —
any error the vector pass might hit is swallowed by its `try/except`. -/
theorem find_relevant_topk_counterexample :
    (RAGSearcher.mk FaissStore.empty [.ok ⟨"b.py", [], []⟩]).find_relevant_files
        (.ok [1.0]) (fun _ => []) "b.py" (-3) = .ok ["b.py"] :=
  rfl

/-- Claim C5, amended.  For `top_k ≤ 0`, `find_relevant_files` does not
raise: on an empty store the search soft-fails, and on a non-empty store
the error the FAISS call raises for a non-positive `k` is caught by the
`try/except` of the vector pass; either way the keyword-pass results are
returned. -/
theorem find_relevant_topk_nonpos (r : RAGSearcher)
    (embed : Except String (List Float)) (raw : Nat → List (Float × Int))
    (query : String) (top_k : Int) (hk : top_k ≤ 0) :
    r.find_relevant_files embed raw query top_k
      = .ok (pySortedSet (r.keywordResults query)) := by
  have hv : r.vectorResults embed raw top_k = [] := by
    cases embed with
    | error e => rfl
    | ok emb =>
      unfold RAGSearcher.vectorResults
      dsimp only
      cases hidx : r.faiss.index with
      | none =>
        rw [r.faiss.search_none raw emb top_k hidx]
        rfl
      | some n =>
        by_cases hn : n = 0
        · subst hn
          rw [r.faiss.search_zero raw emb top_k hidx]
          rfl
        · rw [r.faiss.search_nonpos raw emb top_k n hidx hn hk]
  show Except.ok (pySortedSet (r.keywordResults query
    ++ r.vectorResults embed raw top_k)) = _
  rw [hv, List.append_nil]

/-- Witness for the amended C5 theorem at `top_k = -3`. -/
theorem find_relevant_topk_nonpos_witness :
    (RAGSearcher.mk FaissStore.empty [.ok ⟨"b.py", [], []⟩]).find_relevant_files
        (.ok [1.0]) (fun _ => []) "b.py" (-3)
      = .ok (pySortedSet ((RAGSearcher.mk FaissStore.empty
          [.ok ⟨"b.py", [], []⟩]).keywordResults "b.py")) :=
  find_relevant_topk_nonpos (RAGSearcher.mk FaissStore.empty
    [.ok ⟨"b.py", [], []⟩]) (.ok [1.0]) (fun _ => []) "b.py" (-3) (by decide)

/-- Claim C6: `search` on an uninitialized or empty store returns an empty
result without raising, for every query vector and every `k` (even
non-positive ones, since the emptiness checks come first); on a non-empty
store with `k ≥ 1` the effective `k` is clamped to the index size, so at
most `min(k, size)` rows come back from FAISS and at most that many
results are returned, rows with an unmapped slot being skipped silently
rather than raising. -/
theorem search_soft_fail_clamp_skip :
    (∀ (st : FaissStore) (raw : Nat → List (Float × Int)) (v : List Float)
        (k : Int), st.index = none → st.search raw v k = .ok [])
  ∧ (∀ (st : FaissStore) (raw : Nat → List (Float × Int)) (v : List Float)
        (k : Int), st.index = some 0 → st.search raw v k = .ok [])
  ∧ (∀ (st : FaissStore) (raw : Nat → List (Float × Int)) (v : List Float)
        (k : Int) (n : Nat), st.index = some n → 0 < n → 0 < k →
        ∃ hits : List (Float × String),
          st.search raw v k = .ok hits
          ∧ hits.length ≤ (raw (min k (n : Int)).toNat).length
          ∧ ((raw (min k (n : Int)).toNat).length = (min k (n : Int)).toNat →
              hits.length ≤ min k.toNat n)
          ∧ ∀ x ∈ hits, ∃ i : Nat, st.id_map.lookup i = some x.2) := by
  refine ⟨fun st raw v k h => st.search_none raw v k h,
    fun st raw v k h => st.search_zero raw v k h, ?_⟩
  intro st raw v k n hidx hn hk
  refine ⟨(raw (min k (n : Int)).toNat).filterMap (searchRowFilter st.id_map),
    st.search_pos raw v k n hidx (by omega) hk, ?_, ?_, ?_⟩
  · exact List.length_filterMap_le _ _
  · intro hlen
    have hmin : (min k (n : Int)).toNat = min k.toNat n := by
      rcases le_total k (n : Int) with h | h
      · rw [min_eq_left h, min_eq_left (by omega : k.toNat ≤ n)]
      · rw [min_eq_right h, min_eq_right (by omega : n ≤ k.toNat)]
        omega
    have hle := List.length_filterMap_le (searchRowFilter st.id_map)
      (raw (min k (n : Int)).toNat)
    rw [hlen] at hle
    exact hle.trans hmin.le
  · intro x hx
    obtain ⟨row, _, hf⟩ := List.mem_filterMap.mp hx
    exact searchRowFilter_some st.id_map row x hf

/-- Witness for the C6 theorem on a one-vector store with `k = 5`. -/
theorem search_soft_fail_clamp_skip_witness :
    ((FaissStore.mk (some 1) (some 1) [(0, "a.py")]).search
        (fun _ => [(0.5, 0)]) [1.0] 5).isOk = true := by
  obtain ⟨hits, hok, -, -, -⟩ := search_soft_fail_clamp_skip.2.2
    (FaissStore.mk (some 1) (some 1) [(0, "a.py")]) (fun _ => [(0.5, 0)])
    [1.0] 5 1 rfl (by decide) (by decide)
  rw [hok]
  rfl

/-- Claim C7: after `clear()` the in-memory index and id-map are empty —
any subsequent `search` returns an empty result — the on-disk artifacts no
longer exist, and a `clear` on a disk whose files are already missing
behaves identically instead of raising (each unlink is guarded by an
existence check). -/
theorem clear_semantics (st : FaissStore) (d : Disk) :
    (∀ (raw : Nat → List (Float × Int)) (v : List Float) (k : Int),
        ((st.clear d).1).search raw v k = .ok [])
    ∧ ((st.clear d).1).index = none
    ∧ ((st.clear d).1).id_map = []
    ∧ ((st.clear d).2).indexFile = none
    ∧ ((st.clear d).2).mapFile = none
    ∧ st.clear d = st.clear Disk.empty := by
  refine ⟨fun raw v k => ?_, rfl, rfl, rfl, rfl, rfl⟩
  exact ((st.clear d).1).search_none raw v k rfl

/-- Claim C8: in the keyword pass, a `.py` record is added directly when
its path occurs in the lowercased query, and otherwise exactly when the
keyword set of the query meets the token set of the record (path components plus
lowercased function and class names); the metadata record
`{file: "utils/math_ops.py", functions: ["add_vectors"], classes: []}`
with query `"how do I add_vectors"` yields `["utils/math_ops.py"]` through
the keyword pass alone (empty store, vector pass contributes nothing). -/
theorem keyword_match :
    (∀ (st : FaissStore) (item : MetaItem) (query : String),
        strEndsWith item.file ".py" = true →
        strContains (pyLower query) item.file = true →
        item.file ∈ (RAGSearcher.mk st [.ok item]).keywordResults query)
  ∧ (∀ (st : FaissStore) (item : MetaItem) (query : String),
        strEndsWith item.file ".py" = true →
        strContains (pyLower query) item.file = false →
        (item.file ∈ (RAGSearcher.mk st [.ok item]).keywordResults query
          ↔ ∃ t, t ∈ get_keywords query ∧ t ∈ itemTokens item))
  ∧ ((RAGSearcher.mk FaissStore.empty
        [.ok ⟨"utils/math_ops.py", ["add_vectors"], []⟩]).find_relevant_files
        (.ok []) (fun _ => []) "how do I add_vectors" 5
      = .ok ["utils/math_ops.py"]) := by
  refine ⟨?_, ?_, by rfl⟩
  · intro st item query he hc
    show item.file ∈ keywordPass (pyLower query) (get_keywords query) [.ok item]
    simp only [keywordPass, List.append_nil]
    unfold keywordHits
    rw [he, hc]
    simp
  · intro st item query he hc
    show (item.file ∈ keywordPass (pyLower query) (get_keywords query)
      [.ok item]) ↔ _
    simp only [keywordPass, List.append_nil]
    unfold keywordHits
    rw [he, hc]
    by_cases hi : intersects (get_keywords query) (itemTokens item) = true
    · rw [if_neg (by simp), if_neg (by simp), if_pos hi]
      simp only [List.mem_singleton]
      constructor
      · intro _
        obtain ⟨t, ht, htb⟩ := List.any_eq_true.mp hi
        exact ⟨t, ht, by simpa using htb⟩
      · intro _
        trivial
    · rw [if_neg (by simp), if_neg (by simp), if_neg hi]
      constructor
      · intro hmem
        exact absurd hmem (List.not_mem_nil _)
      · rintro ⟨t, ht, htt⟩
        refine absurd ?_ hi
        exact List.any_eq_true.mpr ⟨t, ht, by simpa using htt⟩

/-- Witness for the C8 theorem: a pasted path is matched directly. -/
theorem keyword_match_witness :
    "a.py" ∈ (RAGSearcher.mk FaissStore.empty
      [.ok ⟨"a.py", [], []⟩]).keywordResults "a.py" :=
  keyword_match.1 FaissStore.empty ⟨"a.py", [], []⟩ "a.py" rfl rfl

end PyAssist
